import Mathlib

/-!
Verification of the dimacs-parser repository: a shallow embedding of
`src/lexer.rs` and `src/parser.rs` (the `errors.rs` / `items.rs` modules are
not part of the provided sources; their types are modelled from the
specification, as marked on each such definition).

Input is modelled as a finite list of byte values (`List Nat`, each < 256);
the Rust `u8` NUL sentinel is the value 0.  64-bit unsigned arithmetic is
modelled with explicit reduction modulo 2^64.
-/

namespace Dimacs

/-- Modelled from the spec: source position from the missing errors.rs —
`(line, column)`, starting at line 1, column 0 (spec section 3). -/
structure Loc where
  line : Nat
  col : Nat
deriving DecidableEq, Repr

/-- Modelled from the spec: `Loc::new`. -/
def Loc.new (line col : Nat) : Loc := ⟨line, col⟩

/-- Modelled from the spec: advancing past a line terminator sets the
position to `(line+1, 0)` (spec section 4.1). -/
def Loc.bump_line (l : Loc) : Loc := ⟨l.line + 1, 0⟩

/-- Modelled from the spec: advancing past any other unit sets the position
to `(line, column+1)` (spec section 4.1). -/
def Loc.bump_col (l : Loc) : Loc := ⟨l.line, l.col + 1⟩

/-- Modelled from the spec: error kinds from the missing errors.rs
(spec section 3). -/
inductive ErrorKind where
  | UnknownKeyword
  | InvalidTokenStart
  | UnexpectedEndOfFile
  | UnexpectedToken
  | EmptyTokenStream
  | InvalidSatExtension
deriving DecidableEq, Repr

/-- Modelled from the spec: `ParseError` is a position plus an error kind. -/
structure ParseError where
  loc : Loc
  kind : ErrorKind
deriving DecidableEq, Repr

/-- `Ident` from lexer.rs: the recognized keywords. -/
inductive Ident where
  | Problem
  | Xor
  | Cnf
  | Sat
  | Satx
  | Sate
  | Satex
deriving DecidableEq, Repr

/-- `TokenKind` from lexer.rs. -/
inductive TokenKind where
  | Comment
  | Nat (val : Nat)
  | Zero
  | Plus
  | Minus
  | Star
  | Eq
  | Open
  | Close
  | Ident (i : Ident)
  | EndOfFile
deriving DecidableEq, Repr

/-- `Token` from lexer.rs: a position plus a token kind. -/
structure Token where
  loc : Loc
  kind : TokenKind
deriving DecidableEq, Repr

/-- `TokenKind::is_relevant` from lexer.rs: everything except comments is
relevant for parsing. -/
def TokenKind.is_relevant : TokenKind → Bool
  | .Comment => false
  | _ => true

/-- Modelled from the spec: literal polarity from the missing items.rs. -/
inductive Sign where
  | Pos
  | Neg
deriving DecidableEq, Repr

/-- Modelled from the spec: a literal is a variable index plus a sign
(spec section 3). -/
structure Lit where
  var : Nat
  sign : Sign
deriving DecidableEq, Repr

/-- Modelled from the spec: `Lit::from_i64` — "constructed from a signed
64-bit value where the magnitude is the variable index and the sign bit
selects polarity" (spec section 3). -/
def Lit.from_i64 (v : Int) : Lit :=
  if v < 0 then ⟨v.natAbs, Sign.Neg⟩ else ⟨v.natAbs, Sign.Pos⟩

/-- Modelled from the spec: a clause is an ordered sequence of literals. -/
structure Clause where
  lits : List Lit
deriving DecidableEq, Repr

/-- Modelled from the spec: `Clause::from_vec`. -/
def Clause.from_vec (v : List Lit) : Clause := ⟨v⟩

/-- Modelled from the spec: the extension flag set over `{Eq, Xor}` from the
missing items.rs (bitflags in the source). -/
structure Extensions where
  eq : Bool
  xor : Bool
deriving DecidableEq, Repr

/-- Modelled from the spec: the empty extension set. -/
def Extensions.NONE : Extensions := ⟨false, false⟩

/-- Modelled from the spec: the `{Eq}` extension set. -/
def Extensions.EQ : Extensions := ⟨true, false⟩

/-- Modelled from the spec: the `{Xor}` extension set. -/
def Extensions.XOR : Extensions := ⟨false, true⟩

/-- Modelled from the spec: the `{Eq, Xor}` extension set (`EQ | XOR`). -/
def Extensions.EQXOR : Extensions := ⟨true, true⟩

/-- Modelled from the spec: the formula tree from the missing items.rs
(spec section 3). -/
inductive Formula where
  | lit (l : Lit)
  | paren (f : Formula)
  | neg (f : Formula)
  | or (fs : List Formula)
  | and (fs : List Formula)
  | eq (fs : List Formula)
  | xor (fs : List Formula)

/-- Modelled from the spec: a parsed instance is either a CNF instance or a
SAT instance (spec section 3). -/
inductive Instance where
  | cnf (num_vars : Nat) (clauses : List Clause)
  | sat (num_vars : Nat) (extensions : Extensions) (formula : Formula)

/-- The Rust cast `val as i64` applied to a `u64` value: two's-complement
reinterpretation (well-defined in Rust). -/
def u64_as_i64 (v : Nat) : Int :=
  if v % 2 ^ 64 < 2 ^ 63 then ((v % 2 ^ 64 : Nat) : Int)
  else ((v % 2 ^ 64 : Nat) : Int) - 2 ^ 64

/-- Wrapping of a mathematical integer into the `i64` range, used to model
`i64` negation (release-mode wrapping semantics; spec section 9 leaves
overflow behaviour to the implementer). -/
def i64_wrap (x : Int) : Int := (x + 2 ^ 63) % 2 ^ 64 - 2 ^ 63

/-- Rust `u8::is_ascii_whitespace`: space, tab, LF, FF, CR. -/
def isWsB (b : Nat) : Bool := b == 32 || b == 9 || b == 10 || b == 12 || b == 13

/-- ASCII letter test (`b'A'..=b'Z' | b'a'..=b'z'`). -/
def isLetterB (b : Nat) : Bool := (65 ≤ b && b ≤ 90) || (97 ≤ b && b ≤ 122)

/-- Rust `u8::is_ascii_digit`. -/
def isDigitB (b : Nat) : Bool := 48 ≤ b && b ≤ 57

/-- Rust `u8::is_ascii_alphanumeric`. -/
def isAlnumB (b : Nat) : Bool := isLetterB b || isDigitB b

/-- The raw lexer state of lexer.rs: remaining input, one-byte lookahead
(`peek`, 0 = NUL sentinel), the position of the token being emitted
(`nloc`) and the position of `peek` (`cloc`).  The keyword scratch buffer
is modelled locally in `scan_keyword` (spec sections 5 and 9 state it
carries no cross-call content). -/
structure Lexer where
  input : List Nat
  peek : Nat
  nloc : Loc
  cloc : Loc
deriving DecidableEq, Repr

/-- `Lexer::bump` (with `bump_opt` inlined): pull one byte into `peek`,
advancing `cloc`; on exhausted input set the NUL sentinel and leave `cloc`
unchanged. -/
def Lexer.bump (lx : Lexer) : Lexer :=
  match lx.input with
  | [] => { lx with peek := 0 }
  | b :: rest =>
      { lx with
        input := rest
        peek := b
        cloc := if b == 10 then lx.cloc.bump_line else lx.cloc.bump_col }

/-- `Lexer::from`: initialize with a pre-fetch of the first unit. -/
def Lexer.fromBytes (input : List Nat) : Lexer :=
  Lexer.bump { input := input, peek := 0, nloc := Loc.new 1 0, cloc := Loc.new 1 0 }

/-- One advance of the byte cursor, as acted on the `(peek, input, cloc)`
components: the body of `Lexer::bump`. -/
def bumpPos (b : Nat) (cl : Loc) : Loc :=
  if b == 10 then cl.bump_line else cl.bump_col

/-- The loop of `Lexer::skip_whitespace`, written on the `(peek, input,
cloc)` components of the lexer state: bump while `peek` is ASCII
whitespace. -/
def skipWsAux (p : Nat) (input : List Nat) (cl : Loc) : Nat × List Nat × Loc :=
  if isWsB p then
    match input with
    | [] => (0, [], cl)
    | b :: rest => skipWsAux b rest (bumpPos b cl)
  else (p, input, cl)

/-- `Lexer::skip_whitespace`. -/
def Lexer.skip_whitespace (lx : Lexer) : Lexer :=
  match skipWsAux lx.peek lx.input lx.cloc with
  | (p, i, c) => { lx with peek := p, input := i, cloc := c }

/-- The loop of `Lexer::skip_line`: bump while `peek` is neither a newline
nor NUL (the newline itself is left as lookahead). -/
def skipLineAux (p : Nat) (input : List Nat) (cl : Loc) : Nat × List Nat × Loc :=
  if p == 10 || p == 0 then (p, input, cl)
  else
    match input with
    | [] => (0, [], cl)
    | b :: rest => skipLineAux b rest (bumpPos b cl)

/-- `Lexer::skip_line`. -/
def Lexer.skip_line (lx : Lexer) : Lexer :=
  match skipLineAux lx.peek lx.input lx.cloc with
  | (p, i, c) => { lx with peek := p, input := i, cloc := c }

/-- `Lexer::scan_comment`: consume through end of line, yield `Comment` at
the token start position. -/
def Lexer.scan_comment (lx : Lexer) : Except ParseError Token × Lexer :=
  match lx.skip_line with
  | ⟨i1, p1, n1, c1⟩ => (.ok ⟨n1, .Comment⟩, ⟨i1, p1, n1, c1⟩)

/-- The loop of `Lexer::unknown_keyword`:
`while bump().is_ascii_alphanumeric()`. -/
def skipAlnumAux (input : List Nat) (cl : Loc) : Nat × List Nat × Loc :=
  match input with
  | [] => (0, [], cl)
  | b :: rest =>
      if isAlnumB b then skipAlnumAux rest (bumpPos b cl)
      else (b, rest, bumpPos b cl)

/-- `Lexer::unknown_keyword`: consume the rest of the alphanumeric run and
fail with `UnknownKeyword` at the token start position. -/
def Lexer.unknown_keyword (lx : Lexer) : Except ParseError Token × Lexer :=
  match skipAlnumAux lx.input lx.cloc with
  | (p, i, c) =>
      (.error ⟨lx.nloc, .UnknownKeyword⟩, { lx with peek := p, input := i, cloc := c })

/-- The loop of `Lexer::scan_keyword`: accumulate alphanumeric units into
the buffer while its length stays below 5; a sixth alphanumeric unit
diverts to the `unknown_keyword` loop (signalled by `none`). -/
def scanKeywordAux (buf : List Nat) (input : List Nat) (cl : Loc) :
    Option (List Nat) × (Nat × List Nat × Loc) :=
  match input with
  | [] => (some buf, (0, [], cl))
  | b :: rest =>
      if isAlnumB b then
        if buf.length < 5 then scanKeywordAux (buf ++ [b]) rest (bumpPos b cl)
        else (none, skipAlnumAux rest (bumpPos b cl))
      else (some buf, (b, rest, bumpPos b cl))

/-- `Lexer::scan_keyword`: scan an alphanumeric run starting at the current
letter and map the buffered spelling to a comment, a keyword token, or an
`UnknownKeyword` error. -/
def Lexer.scan_keyword (lx : Lexer) : Except ParseError Token × Lexer :=
  match scanKeywordAux [lx.peek] lx.input lx.cloc with
  | (none, (p, i, c)) =>
      (.error ⟨lx.nloc, .UnknownKeyword⟩,
       { lx with peek := p, input := i, cloc := c })
  | (some buf, (p, i, c)) =>
      let lx1 : Lexer := { lx with peek := p, input := i, cloc := c }
      if buf = [99] then lx1.scan_comment
      else if buf = [112] then (.ok ⟨lx1.nloc, .Ident .Problem⟩, lx1)
      else if buf = [99, 110, 102] then (.ok ⟨lx1.nloc, .Ident .Cnf⟩, lx1)
      else if buf = [115, 97, 116] then (.ok ⟨lx1.nloc, .Ident .Sat⟩, lx1)
      else if buf = [115, 97, 116, 101] then (.ok ⟨lx1.nloc, .Ident .Sate⟩, lx1)
      else if buf = [115, 97, 116, 120] then (.ok ⟨lx1.nloc, .Ident .Satx⟩, lx1)
      else if buf = [115, 97, 116, 101, 120] then (.ok ⟨lx1.nloc, .Ident .Satex⟩, lx1)
      else if buf = [120, 111, 114] then (.ok ⟨lx1.nloc, .Ident .Xor⟩, lx1)
      else (.error ⟨lx1.nloc, .UnknownKeyword⟩, lx1)

/-- The loop of `Lexer::scan_nat`: decimal accumulation (wrapping at 2^64)
while the bumped byte is a digit; the first non-digit is left as lookahead. -/
def scanNatAux (val : Nat) (input : List Nat) (cl : Loc) : Nat × (Nat × List Nat × Loc) :=
  match input with
  | [] => (val, (0, [], cl))
  | b :: rest =>
      if isDigitB b then scanNatAux ((val * 10 + (b - 48)) % 2 ^ 64) rest (bumpPos b cl)
      else (val, (b, rest, bumpPos b cl))

/-- `Lexer::scan_nat`: only reached with a digit `1`–`9` as lookahead. -/
def Lexer.scan_nat (lx : Lexer) : Except ParseError Token × Lexer :=
  match scanNatAux (lx.peek - 48) lx.input lx.cloc with
  | (val, (p, i, c)) =>
      (.ok ⟨lx.nloc, .Nat val⟩, { lx with peek := p, input := i, cloc := c })

/-- `Lexer::next_token`: skip whitespace, stop at the NUL sentinel, snapshot
the token start position, and dispatch on the lookahead byte. -/
def Lexer.next_token (lx : Lexer) : Option (Except ParseError Token × Lexer) :=
  match lx.skip_whitespace with
  | ⟨i1, p1, _, c1⟩ =>
  if p1 == 0 then none
  else
    let lx2 : Lexer := ⟨i1, p1, c1, c1⟩
    some (
      if isLetterB lx2.peek then lx2.scan_keyword
      else if 49 ≤ lx2.peek && lx2.peek ≤ 57 then lx2.scan_nat
      else if lx2.peek == 48 then (.ok ⟨lx2.nloc, .Zero⟩, lx2.bump)
      else if lx2.peek == 40 then (.ok ⟨lx2.nloc, .Open⟩, lx2.bump)
      else if lx2.peek == 41 then (.ok ⟨lx2.nloc, .Close⟩, lx2.bump)
      else if lx2.peek == 43 then (.ok ⟨lx2.nloc, .Plus⟩, lx2.bump)
      else if lx2.peek == 42 then (.ok ⟨lx2.nloc, .Star⟩, lx2.bump)
      else if lx2.peek == 61 then (.ok ⟨lx2.nloc, .Eq⟩, lx2.bump)
      else if lx2.peek == 45 then (.ok ⟨lx2.nloc, .Minus⟩, lx2.bump)
      else (.error ⟨lx2.nloc, .InvalidTokenStart⟩, lx2.bump))

/-- The raw lexer iterated as a list, with fuel bounding the number of
pulls (each produced item consumes at least one input byte, so
`input.length + 2` fuel always reaches the end of the stream). -/
def lexListF : Nat → Lexer → List (Except ParseError Token)
  | 0, _ => []
  | fuel + 1, lx =>
      match lx.next_token with
      | none => []
      | some (r, lx1) => r :: lexListF fuel lx1

/-- The full raw token stream of an input. -/
def tokens (input : List Nat) : List (Except ParseError Token) :=
  lexListF (input.length + 2) (Lexer.fromBytes input)

/-- `ValidLexer::next` iterated as a list (fuel counts raw pulls): errors
pass through, relevant tokens are emitted, comments are skipped. -/
def validListF : Nat → Lexer → List (Except ParseError Token)
  | 0, _ => []
  | fuel + 1, lx =>
      match lx.next_token with
      | none => []
      | some (.error e, lx1) => .error e :: validListF fuel lx1
      | some (.ok t, lx1) =>
          if t.kind.is_relevant then .ok t :: validListF fuel lx1
          else validListF fuel lx1

/-- The full filtered token stream of an input (`ValidLexer::from`). -/
def validTokens (input : List Nat) : List (Except ParseError Token) :=
  validListF (input.length + 2) (Lexer.fromBytes input)

/-- Decidable equality for `Except`, needed to decide facts about parser
states. -/
instance {ε α : Type} [DecidableEq ε] [DecidableEq α] : DecidableEq (Except ε α) :=
  fun a b =>
    match a, b with
    | .ok x, .ok y =>
        if h : x = y then isTrue (by rw [h]) else isFalse (by intro hh; cases hh; exact h rfl)
    | .error x, .error y =>
        if h : x = y then isTrue (by rw [h]) else isFalse (by intro hh; cases hh; exact h rfl)
    | .ok _, .error _ => isFalse (by intro hh; cases hh)
    | .error _, .ok _ => isFalse (by intro hh; cases hh)

/-- The parser state of parser.rs: the remaining filtered token stream and
the one-item lookahead. -/
structure Parser where
  tokens : List (Except ParseError Token)
  peek : Except ParseError Token
deriving DecidableEq, Repr

/-- `Parser::from`: lookahead initialized to the `EmptyTokenStream`
sentinel at position (0, 0). -/
def Parser.fromTokens (ts : List (Except ParseError Token)) : Parser :=
  ⟨ts, .error ⟨Loc.new 0 0, .EmptyTokenStream⟩⟩

/-- The parser over a byte input, pulling from the filtering lexer. -/
def Parser.fromInput (input : List Nat) : Parser :=
  Parser.fromTokens (validTokens input)

/-- `Parser::peek_loc`. -/
def Parser.peek_loc (p : Parser) : Loc :=
  match p.peek with
  | .ok t => t.loc
  | .error e => e.loc

/-- `Parser::consume`: advance `peek` to the next stream item (or to an
`UnexpectedEndOfFile` error at the old lookahead's position when the
stream is exhausted) and return the new `peek`. -/
def Parser.consume (p : Parser) : Except ParseError Token × Parser :=
  match p.tokens with
  | [] =>
      let pk : Except ParseError Token := .error ⟨p.peek_loc, .UnexpectedEndOfFile⟩
      (pk, { p with peek := pk })
  | t :: rest => (t, { tokens := rest, peek := t })

/-- `Parser::expect`: an error lookahead propagates unchanged; a matching
kind consumes (returning `consume`'s result, i.e. the new lookahead); a
mismatch fails with `UnexpectedToken` without consuming. -/
def Parser.expect (k : TokenKind) (p : Parser) : Except ParseError Token × Parser :=
  match p.peek with
  | .error e => (.error e, p)
  | .ok t => if t.kind = k then p.consume else (.error ⟨p.peek_loc, .UnexpectedToken⟩, p)

/-- `Parser::expect_nat`: return the value of a `Nat` lookahead without
consuming anything; otherwise fail with `UnexpectedToken`. -/
def Parser.expect_nat (p : Parser) : Except ParseError Nat :=
  match p.peek with
  | .error e => .error e
  | .ok t =>
      match t.kind with
      | .Nat v => .ok v
      | _ => .error ⟨p.peek_loc, .UnexpectedToken⟩

/-- `Parser::parse_clauses`: the stubbed clause collector — allocates and
returns an empty clause list without reading any token (`// TODO!`). -/
def Parser.parse_clauses (num_clauses : Nat) (p : Parser) :
    Except ParseError (List Clause × Parser) :=
  .ok ([], p)

/-- `Parser::parse_sat_extensions`: map the extension keyword to its flag
set (consuming it); any other token kind fails with `InvalidSatExtension`. -/
def Parser.parse_sat_extensions (p : Parser) : Except ParseError (Extensions × Parser) :=
  match p.peek with
  | .error e => .error e
  | .ok t =>
      match t.kind with
      | .Ident .Sat =>
          (match p.consume with
           | (.error e, _) => .error e
           | (.ok _, p1) => .ok (Extensions.NONE, p1))
      | .Ident .Sate =>
          (match p.consume with
           | (.error e, _) => .error e
           | (.ok _, p1) => .ok (Extensions.EQ, p1))
      | .Ident .Satx =>
          (match p.consume with
           | (.error e, _) => .error e
           | (.ok _, p1) => .ok (Extensions.XOR, p1))
      | .Ident .Satex =>
          (match p.consume with
           | (.error e, _) => .error e
           | (.ok _, p1) => .ok (Extensions.EQXOR, p1))
      | _ => .error ⟨p.peek_loc, .InvalidSatExtension⟩

mutual

/-- `Parser::parse_formula`: dispatch on the lookahead kind.  The `Nat`
branch reads the literal directly from the lookahead without consuming it.
Fuel (decremented on every call of this mutual family) models the
possibility of divergence: `none` means the fuel ran out. -/
def Parser.parse_formula : Nat → Parser → Option (Except ParseError (Formula × Parser))
  | 0, _ => none
  | fuel + 1, p =>
      match p.peek with
      | .error e => some (.error e)
      | .ok t =>
          match t.kind with
          | .Nat v => some (.ok (.lit (Lit.from_i64 (u64_as_i64 v)), p))
          | .Open => Parser.parse_paren_formula fuel p
          | .Plus => Parser.parse_or_formula fuel p
          | .Star => Parser.parse_and_formula fuel p
          | .Minus => Parser.parse_neg_formula fuel p
          | .Eq => Parser.parse_eq_formula fuel p
          | .Ident .Xor => Parser.parse_xor_formula fuel p
          | _ => some (.error ⟨p.peek_loc, .UnexpectedToken⟩)

/-- `Parser::parse_formula_list`: parse formulas while the lookahead is not
`Close`. -/
def Parser.parse_formula_list : Nat → Parser → Option (Except ParseError (List Formula × Parser))
  | 0, _ => none
  | fuel + 1, p =>
      match p.peek with
      | .error e => some (.error e)
      | .ok t =>
          if t.kind = .Close then some (.ok ([], p))
          else
            match Parser.parse_formula fuel p with
            | none => none
            | some (.error e) => some (.error e)
            | some (.ok (f, p1)) =>
                match Parser.parse_formula_list fuel p1 with
                | none => none
                | some (.error e) => some (.error e)
                | some (.ok (fs, p2)) => some (.ok (f :: fs, p2))

/-- `Parser::parse_formula_params`: `expect(Open)`, a formula list,
`expect(Close)`. -/
def Parser.parse_formula_params : Nat → Parser → Option (Except ParseError (List Formula × Parser))
  | 0, _ => none
  | fuel + 1, p =>
      match Parser.expect .Open p with
      | (.error e, _) => some (.error e)
      | (.ok _, p1) =>
          match Parser.parse_formula_list fuel p1 with
          | none => none
          | some (.error e) => some (.error e)
          | some (.ok (fs, p2)) =>
              match Parser.expect .Close p2 with
              | (.error e, _) => some (.error e)
              | (.ok _, p3) => some (.ok (fs, p3))

/-- `Parser::parse_paren_formula`. -/
def Parser.parse_paren_formula : Nat → Parser → Option (Except ParseError (Formula × Parser))
  | 0, _ => none
  | fuel + 1, p =>
      match Parser.expect .Open p with
      | (.error e, _) => some (.error e)
      | (.ok _, p1) =>
          match Parser.parse_formula fuel p1 with
          | none => none
          | some (.error e) => some (.error e)
          | some (.ok (f, p2)) =>
              match Parser.expect .Close p2 with
              | (.error e, _) => some (.error e)
              | (.ok _, p3) => some (.ok (.paren f, p3))

/-- `Parser::parse_neg_formula`: after `Minus`, either a negated
parenthesized sub-formula or a negative literal. -/
def Parser.parse_neg_formula : Nat → Parser → Option (Except ParseError (Formula × Parser))
  | 0, _ => none
  | fuel + 1, p =>
      match Parser.expect .Minus p with
      | (.error e, _) => some (.error e)
      | (.ok _, p1) =>
          match p1.peek with
          | .error e => some (.error e)
          | .ok t =>
              match t.kind with
              | .Open =>
                  (match Parser.expect .Open p1 with
                   | (.error e, _) => some (.error e)
                   | (.ok _, p2) =>
                       match Parser.parse_formula fuel p2 with
                       | none => none
                       | some (.error e) => some (.error e)
                       | some (.ok (f, p3)) =>
                           match Parser.expect .Close p3 with
                           | (.error e, _) => some (.error e)
                           | (.ok _, p4) => some (.ok (.neg f, p4)))
              | .Nat v =>
                  (match Parser.expect (.Nat v) p1 with
                   | (.error e, _) => some (.error e)
                   | (.ok _, p2) =>
                       some (.ok (.lit (Lit.from_i64 (i64_wrap (-(u64_as_i64 v)))), p2)))
              | _ => some (.error ⟨p1.peek_loc, .UnexpectedToken⟩)

/-- `Parser::parse_or_formula`. -/
def Parser.parse_or_formula : Nat → Parser → Option (Except ParseError (Formula × Parser))
  | 0, _ => none
  | fuel + 1, p =>
      match Parser.expect .Plus p with
      | (.error e, _) => some (.error e)
      | (.ok _, p1) =>
          match Parser.parse_formula_params fuel p1 with
          | none => none
          | some (.error e) => some (.error e)
          | some (.ok (fs, p2)) => some (.ok (.or fs, p2))

/-- `Parser::parse_and_formula`. -/
def Parser.parse_and_formula : Nat → Parser → Option (Except ParseError (Formula × Parser))
  | 0, _ => none
  | fuel + 1, p =>
      match Parser.expect .Star p with
      | (.error e, _) => some (.error e)
      | (.ok _, p1) =>
          match Parser.parse_formula_params fuel p1 with
          | none => none
          | some (.error e) => some (.error e)
          | some (.ok (fs, p2)) => some (.ok (.and fs, p2))

/-- `Parser::parse_eq_formula`. -/
def Parser.parse_eq_formula : Nat → Parser → Option (Except ParseError (Formula × Parser))
  | 0, _ => none
  | fuel + 1, p =>
      match Parser.expect .Eq p with
      | (.error e, _) => some (.error e)
      | (.ok _, p1) =>
          match Parser.parse_formula_params fuel p1 with
          | none => none
          | some (.error e) => some (.error e)
          | some (.ok (fs, p2)) => some (.ok (.eq fs, p2))

/-- `Parser::parse_xor_formula`. -/
def Parser.parse_xor_formula : Nat → Parser → Option (Except ParseError (Formula × Parser))
  | 0, _ => none
  | fuel + 1, p =>
      match Parser.expect (.Ident .Xor) p with
      | (.error e, _) => some (.error e)
      | (.ok _, p1) =>
          match Parser.parse_formula_params fuel p1 with
          | none => none
          | some (.error e) => some (.error e)
          | some (.ok (fs, p2)) => some (.ok (.xor fs, p2))

end

/-- `Parser::parse_cnf_header`: `expect(Ident(Cnf))`, two `expect_nat`
reads (neither consumes a token), then the stubbed clause collector. -/
def Parser.parse_cnf_header (p : Parser) : Except ParseError (Instance × Parser) :=
  match Parser.expect (.Ident .Cnf) p with
  | (.error e, _) => .error e
  | (.ok _, p1) =>
      match p1.expect_nat with
      | .error e => .error e
      | .ok num_vars =>
          match p1.expect_nat with
          | .error e => .error e
          | .ok num_clauses =>
              match Parser.parse_clauses num_clauses p1 with
              | .error e => .error e
              | .ok (cls, p2) => .ok (.cnf num_vars cls, p2)

/-- `Parser::parse_sat_header`: extensions, one `expect_nat` read (which
does not consume), then one formula. -/
def Parser.parse_sat_header (fuel : Nat) (p : Parser) :
    Option (Except ParseError (Instance × Parser)) :=
  match p.parse_sat_extensions with
  | .error e => some (.error e)
  | .ok (exts, p1) =>
      match p1.expect_nat with
      | .error e => some (.error e)
      | .ok num_vars =>
          match Parser.parse_formula fuel p1 with
          | none => none
          | some (.error e) => some (.error e)
          | some (.ok (f, p2)) => some (.ok (.sat num_vars exts f, p2))

/-- `Parser::parse_header`: `expect(Ident(Problem))`, then dispatch on the
problem-kind keyword. -/
def Parser.parse_header (fuel : Nat) (p : Parser) :
    Option (Except ParseError (Instance × Parser)) :=
  match Parser.expect (.Ident .Problem) p with
  | (.error e, _) => some (.error e)
  | (.ok _, p1) =>
      match p1.peek with
      | .error e => some (.error e)
      | .ok t =>
          match t.kind with
          | .Ident .Cnf => some p1.parse_cnf_header
          | .Ident .Sat => p1.parse_sat_header fuel
          | .Ident .Sate => p1.parse_sat_header fuel
          | .Ident .Satx => p1.parse_sat_header fuel
          | .Ident .Satex => p1.parse_sat_header fuel
          | _ => some (.error ⟨p1.peek_loc, .UnexpectedToken⟩)

/-- `Parser::parse_dimacs` (the method): consume the first token, then
parse the header. -/
def Parser.parse_dimacs (fuel : Nat) (p : Parser) : Option (Except ParseError Instance) :=
  match p.consume with
  | (.error e, _) => some (.error e)
  | (.ok _, p1) =>
      match Parser.parse_header fuel p1 with
      | none => none
      | some (.error e) => some (.error e)
      | some (.ok (inst, _)) => some (.ok inst)

/-- The crate-level `parse_dimacs` entry point on a byte input.  The fuel
`input.length + 2` is positive, and the only formula parse reachable from
the header is the one-step `Nat` branch, so the fuel never runs out on the
paths this development reasons about. -/
def parse_dimacs (input : List Nat) : Option (Except ParseError Instance) :=
  Parser.parse_dimacs (input.length + 2) (Parser.fromInput input)

/-! ## Validation of the embedding against the repository's unit tests -/

set_option maxHeartbeats 2000000 in
/-- lexer.rs test `tricky_1`: the stream of `(1-2)`. -/
theorem lexer_test_tricky_1 :
    tokens ([40, 49, 45, 50, 41]) =
      [.ok ⟨Loc.new 1 1, .Open⟩, .ok ⟨Loc.new 1 2, .Nat 1⟩, .ok ⟨Loc.new 1 3, .Minus⟩,
       .ok ⟨Loc.new 1 4, .Nat 2⟩, .ok ⟨Loc.new 1 5, .Close⟩] := by rfl

set_option maxHeartbeats 2000000 in
/-- lexer.rs test `all_idents`: every keyword spelling. -/
theorem lexer_test_all_idents :
    tokens ([112, 32, 99, 110, 102, 32, 115, 97, 116, 32, 115, 97, 116, 120, 32, 115, 97, 116, 101, 32, 115, 97, 116, 101, 120, 32, 120, 111, 114]) =
      [.ok ⟨Loc.new 1 1, .Ident .Problem⟩, .ok ⟨Loc.new 1 3, .Ident .Cnf⟩,
       .ok ⟨Loc.new 1 7, .Ident .Sat⟩, .ok ⟨Loc.new 1 11, .Ident .Satx⟩,
       .ok ⟨Loc.new 1 16, .Ident .Sate⟩, .ok ⟨Loc.new 1 21, .Ident .Satex⟩,
       .ok ⟨Loc.new 1 27, .Ident .Xor⟩] := by rfl

set_option maxHeartbeats 2000000 in
/-- lexer.rs test `all_ops`: every operator byte. -/
theorem lexer_test_all_ops :
    tokens ([40, 41, 43, 45, 42, 61]) =
      [.ok ⟨Loc.new 1 1, .Open⟩, .ok ⟨Loc.new 1 2, .Close⟩, .ok ⟨Loc.new 1 3, .Plus⟩,
       .ok ⟨Loc.new 1 4, .Minus⟩, .ok ⟨Loc.new 1 5, .Star⟩, .ok ⟨Loc.new 1 6, .Eq⟩] := by rfl

set_option maxHeartbeats 2000000 in
/-- lexer.rs test `invalid_token_start`: `# foo Big` produces three errors
and the lexer resynchronizes after each. -/
theorem lexer_test_invalid_token_start :
    tokens ([35, 32, 102, 111, 111, 32, 66, 105, 103]) =
      [.error ⟨Loc.new 1 1, .InvalidTokenStart⟩, .error ⟨Loc.new 1 3, .UnknownKeyword⟩,
       .error ⟨Loc.new 1 7, .UnknownKeyword⟩] := by rfl

/-! ## Claim theorems -/

/-- The predicate kept by the filtering lexer: errors and grammatically
relevant (non-comment) tokens. -/
def keepTok : Except ParseError Token → Bool
  | .error _ => true
  | .ok t => t.kind.is_relevant

lemma validListF_eq_filter : ∀ (fuel : Nat) (lx : Lexer),
    validListF fuel lx = (lexListF fuel lx).filter keepTok := by
  intro fuel
  induction fuel with
  | zero => intro lx; rfl
  | succ n ih =>
      intro lx
      simp only [validListF, lexListF]
      cases h : lx.next_token with
      | none => simp
      | some pr =>
          obtain ⟨r, lx1⟩ := pr
          cases r with
          | error e => simp [List.filter_cons, keepTok, ih]
          | ok t =>
              by_cases hrel : t.kind.is_relevant
              · simp [List.filter_cons, keepTok, hrel, ih]
              · simp only [Bool.not_eq_true] at hrel
                simp [List.filter_cons, keepTok, hrel, ih]

/-- C6: the filtering lexer's output equals the raw lexer's output with all
and only `Comment` tokens removed — errors pass through unchanged, and the
kinds, positions and relative order of all non-comment tokens are exactly
those of the raw stream. -/
theorem c6_filter_removes_exactly_comments :
    (∀ (fuel : Nat) (lx : Lexer),
        validListF fuel lx = (lexListF fuel lx).filter keepTok) ∧
    ∀ input : List Nat, validTokens input = (tokens input).filter keepTok :=
  ⟨validListF_eq_filter, fun _ => validListF_eq_filter _ _⟩

lemma peek_loc_of_ok {p : Parser} {t : Token} (h : p.peek = .ok t) : p.peek_loc = t.loc := by
  simp [Parser.peek_loc, h]

/-- C4 (amended): with an `Ok` lookahead of the requested kind, `expect`
consumes the matched token and returns the result of `consume` — the NEW
lookahead item (the following token, a passed-through lexer error, or
`UnexpectedEndOfFile`), not the matched token itself; with a different
kind it fails with `UnexpectedToken` at the lookahead's position without
consuming. -/
theorem c4_expect_consume_behavior :
    ∀ (p : Parser) (t : Token) (k : TokenKind), p.peek = .ok t →
      (t.kind = k → Parser.expect k p = p.consume) ∧
      (t.kind ≠ k → Parser.expect k p = (.error ⟨t.loc, .UnexpectedToken⟩, p)) := by
  intro p t k h
  constructor
  · intro hk
    simp [Parser.expect, h, hk]
  · intro hk
    simp [Parser.expect, h, hk, peek_loc_of_ok h]

/-- C4 counterexample: in the state whose lookahead is `Open` at (1,1) and
whose next stream item is `Close` at (1,2), `expect(Open)` returns the
`Close` token — not the matched `Open` token, contrary to the claim. -/
theorem c4_counterexample :
    (Parser.expect .Open ⟨[.ok ⟨Loc.new 1 2, .Close⟩], .ok ⟨Loc.new 1 1, .Open⟩⟩).1 =
      .ok ⟨Loc.new 1 2, .Close⟩ ∧
    (Parser.expect .Open ⟨[.ok ⟨Loc.new 1 2, .Close⟩], .ok ⟨Loc.new 1 1, .Open⟩⟩).1 ≠
      .ok ⟨Loc.new 1 1, .Open⟩ := by
  exact ⟨rfl, by decide⟩

/-- Witness for C4: the mismatch arm applied at a concrete state. -/
theorem c4_witness :
    Parser.expect .Open ⟨[], .ok ⟨Loc.new 1 1, .Close⟩⟩ =
      (.error ⟨Loc.new 1 1, .UnexpectedToken⟩, ⟨[], .ok ⟨Loc.new 1 1, .Close⟩⟩) :=
  (c4_expect_consume_behavior ⟨[], .ok ⟨Loc.new 1 1, .Close⟩⟩ ⟨Loc.new 1 1, .Close⟩ .Open
    rfl).2 (by decide)

set_option maxHeartbeats 2000000 in
/-- C1 (code bug): on the spec's own scenario `p cnf 2 2\n1 2 0\n-1 -2 0`
the parse succeeds but returns an instance with an empty clause list
(`parse_clauses` is a `TODO` stub), not the declared 2 clauses; the repo's
own test `simple_cnf` contradicts this behaviour. -/
theorem c1_parse_clauses_stubbed :
    parse_dimacs ([112, 32, 99, 110, 102, 32, 50, 32, 50, 10, 49, 32, 50, 32, 48, 10, 45, 49, 32, 45, 50, 32, 48]) = some (.ok (.cnf 2 [])) := by
  rfl

set_option maxHeartbeats 2000000 in
/-- C2 (code bug): on the spec's scenario `p sat 3\n(*(+(1 3 -2)\n+(2)))`
the parse succeeds with formula = the positive literal 3 — `expect_nat`
never consumes the `Nat 3` token, so `parse_formula` re-reads it as the
whole formula and the rest of the input is ignored; the repo's own test
`simple_sat` contradicts this behaviour. -/
theorem c2_sat_formula_is_numvars_literal :
    parse_dimacs ([112, 32, 115, 97, 116, 32, 51, 10, 40, 42, 40, 43, 40, 49, 32, 51, 32, 45, 50, 41, 10, 43, 40, 50, 41, 41, 41]) =
      some (.ok (.sat 3 Extensions.NONE (.lit ⟨3, .Pos⟩))) := by
  rfl

set_option maxHeartbeats 2000000 in
/-- C3 counterexample: for `num_vars = 2^63` the successful SAT parse
returns a NEGATIVE literal (the `u64` value reinterpreted as `i64` is
negative), refuting "the single positive literal". -/
theorem c3_counterexample :
    parse_dimacs ([112, 32, 115, 97, 116, 32, 57, 50, 50, 51, 51, 55, 50, 48, 51, 54, 56, 53, 52, 55, 55, 53, 56, 48, 56]) =
      some (.ok (.sat 9223372036854775808 Extensions.NONE
        (.lit ⟨9223372036854775808, .Neg⟩))) := by
  rfl

set_option maxHeartbeats 2000000 in
/-- C5 counterexample: the NUL byte 0x00 lies outside
`[A-Za-z0-9()+-*=\s]`, yet the raw lexer emits no `InvalidTokenStart` for
it — it treats NUL as end of input and the stream is empty. -/
theorem c5_counterexample : tokens [0] = [] := by rfl

set_option maxHeartbeats 2000000 in
/-- C8 counterexample: the alphanumeric run `c` is not one of the 7 keyword
spellings, yet it lexes as a `Comment` token instead of failing with
`UnknownKeyword`. -/
theorem c8_counterexample :
    tokens ([99]) = [.ok ⟨Loc.new 1 1, .Comment⟩] := by rfl

set_option maxHeartbeats 2000000 in
/-- C10 counterexample: on empty input `parse_dimacs` fails with
`UnexpectedEndOfFile` carrying the initial sentinel position (0, 0), whose
line number 0 is not positive. -/
theorem c10_counterexample :
    parse_dimacs [] = some (.error ⟨Loc.new 0 0, .UnexpectedEndOfFile⟩) := by rfl

lemma skipWsAux_not_ws {p : Nat} (input : List Nat) (cl : Loc) (h : isWsB p = false) :
    skipWsAux p input cl = (p, input, cl) := by
  unfold skipWsAux
  simp [h]

/-- `next_token` on a non-whitespace, non-NUL lookahead: the whitespace
skip is the identity and the dispatch runs on the given byte. -/
lemma next_token_eq (i : List Nat) (p : Nat) (n c : Loc)
    (hw : isWsB p = false) (h0 : (p == 0) = false) :
    Lexer.next_token ⟨i, p, n, c⟩ =
      some (
        if isLetterB p then Lexer.scan_keyword ⟨i, p, c, c⟩
        else if 49 ≤ p && p ≤ 57 then Lexer.scan_nat ⟨i, p, c, c⟩
        else if p == 48 then (.ok ⟨c, .Zero⟩, Lexer.bump ⟨i, p, c, c⟩)
        else if p == 40 then (.ok ⟨c, .Open⟩, Lexer.bump ⟨i, p, c, c⟩)
        else if p == 41 then (.ok ⟨c, .Close⟩, Lexer.bump ⟨i, p, c, c⟩)
        else if p == 43 then (.ok ⟨c, .Plus⟩, Lexer.bump ⟨i, p, c, c⟩)
        else if p == 42 then (.ok ⟨c, .Star⟩, Lexer.bump ⟨i, p, c, c⟩)
        else if p == 61 then (.ok ⟨c, .Eq⟩, Lexer.bump ⟨i, p, c, c⟩)
        else if p == 45 then (.ok ⟨c, .Minus⟩, Lexer.bump ⟨i, p, c, c⟩)
        else (.error ⟨c, .InvalidTokenStart⟩, Lexer.bump ⟨i, p, c, c⟩)) := by
  simp only [Lexer.next_token, Lexer.skip_whitespace, skipWsAux_not_ws i c hw, h0,
    Bool.false_eq_true, if_false]

/-- C9: whenever the lookahead byte is `0` (0x30), the lexer emits `Zero`
at that byte's position and consumes exactly that one digit — a
leading-zero numeral is never merged into a multi-digit number; in
particular `01` lexes as `Zero` followed by `Nat 1`. -/
theorem c9_leading_zero :
    (∀ lx : Lexer, lx.peek = 48 →
        lx.next_token =
          some (.ok ⟨lx.cloc, .Zero⟩, Lexer.bump ⟨lx.input, 48, lx.cloc, lx.cloc⟩)) ∧
    tokens [48, 49] = [.ok ⟨Loc.new 1 1, .Zero⟩, .ok ⟨Loc.new 1 2, .Nat 1⟩] := by
  constructor
  · intro lx h
    obtain ⟨i, p, n, c⟩ := lx
    change p = 48 at h
    subst h
    show Lexer.next_token ⟨i, 48, n, c⟩ = some (.ok ⟨c, .Zero⟩, Lexer.bump ⟨i, 48, c, c⟩)
    rw [next_token_eq i 48 n c (by decide) (by decide)]
    rfl
  · rfl

/-- Witness for C9: the `Zero` emission applied at the lexer state reached
on input `01` after the initial pre-fetch. -/
theorem c9_witness :
    Lexer.next_token ⟨[49], 48, Loc.new 1 0, Loc.new 1 1⟩ =
      some (.ok ⟨Loc.new 1 1, .Zero⟩,
        Lexer.bump ⟨[49], 48, Loc.new 1 1, Loc.new 1 1⟩) :=
  c9_leading_zero.1 ⟨[49], 48, Loc.new 1 0, Loc.new 1 1⟩ rfl

/-- C5 (amended): every lookahead byte outside `[A-Za-z0-9()+-*=\s]` OTHER
THAN NUL yields `InvalidTokenStart` positioned exactly at that byte, with
the lexer state advanced past it so the next call resumes at the following
unit; a NUL byte instead terminates the stream. -/
theorem c5_invalid_token_start :
    ∀ lx : Lexer,
      isWsB lx.peek = false → isLetterB lx.peek = false → isDigitB lx.peek = false →
      lx.peek ≠ 40 → lx.peek ≠ 41 → lx.peek ≠ 43 → lx.peek ≠ 42 → lx.peek ≠ 61 →
      lx.peek ≠ 45 → lx.peek ≠ 0 →
      lx.next_token =
        some (.error ⟨lx.cloc, .InvalidTokenStart⟩,
          Lexer.bump ⟨lx.input, lx.peek, lx.cloc, lx.cloc⟩) := by
  intro lx hw hl hd h40 h41 h43 h42 h61 h45 h0
  obtain ⟨i, p, n, c⟩ := lx
  change isWsB p = false at hw
  change isLetterB p = false at hl
  change isDigitB p = false at hd
  change p ≠ 40 at h40
  change p ≠ 41 at h41
  change p ≠ 43 at h43
  change p ≠ 42 at h42
  change p ≠ 61 at h61
  change p ≠ 45 at h45
  change p ≠ 0 at h0
  show Lexer.next_token ⟨i, p, n, c⟩ =
    some (.error ⟨c, .InvalidTokenStart⟩, Lexer.bump ⟨i, p, c, c⟩)
  rw [next_token_eq i p n c hw (by simp [h0])]
  have e9 : (49 ≤ p && p ≤ 57) = false := by
    simp only [isDigitB, Bool.and_eq_false_iff, decide_eq_false_iff_not, not_le] at hd ⊢
    omega
  have e48 : (p == 48) = false := by
    simp only [isDigitB, Bool.and_eq_false_iff, decide_eq_false_iff_not, not_le] at hd
    simp only [beq_eq_false_iff_ne, ne_eq]
    omega
  have e40 : (p == 40) = false := by simp [h40]
  have e41 : (p == 41) = false := by simp [h41]
  have e43 : (p == 43) = false := by simp [h43]
  have e42 : (p == 42) = false := by simp [h42]
  have e61 : (p == 61) = false := by simp [h61]
  have e45 : (p == 45) = false := by simp [h45]
  simp only [hl, e9, e48, e40, e41, e43, e42, e61, e45, Bool.false_eq_true, if_false]

/-- Witness for C5: the `#` byte (0x23) at the start of `# foo Big`. -/
theorem c5_witness :
    Lexer.next_token ⟨[32, 102], 35, Loc.new 1 0, Loc.new 1 1⟩ =
      some (.error ⟨Loc.new 1 1, .InvalidTokenStart⟩,
        Lexer.bump ⟨[32, 102], 35, Loc.new 1 1, Loc.new 1 1⟩) :=
  c5_invalid_token_start ⟨[32, 102], 35, Loc.new 1 0, Loc.new 1 1⟩
    (by decide) (by decide) (by decide) (by decide) (by decide) (by decide) (by decide)
    (by decide) (by decide) (by decide)

lemma expect_nat_ok {p : Parser} {v : Nat} (h : p.expect_nat = .ok v) :
    ∃ t : Token, p.peek = .ok t ∧ t.kind = .Nat v := by
  unfold Parser.expect_nat at h
  split at h
  · exact absurd h (by simp)
  · rename_i t hpk
    split at h
    · rename_i v' hv
      cases h
      exact ⟨t, hpk, hv⟩
    · exact absurd h (by simp)

lemma parse_sat_extensions_ok_cases {p : Parser} {e : Extensions} {p1 : Parser}
    (h : p.parse_sat_extensions = .ok (e, p1)) :
    e = Extensions.NONE ∨ e = Extensions.EQ ∨ e = Extensions.XOR ∨ e = Extensions.EQXOR := by
  unfold Parser.parse_sat_extensions at h
  split at h
  · exact absurd h (by simp)
  · split at h
    · split at h
      · exact absurd h (by simp)
      · cases h
        exact Or.inl rfl
    · split at h
      · exact absurd h (by simp)
      · cases h
        exact Or.inr (Or.inl rfl)
    · split at h
      · exact absurd h (by simp)
      · cases h
        exact Or.inr (Or.inr (Or.inl rfl))
    · split at h
      · exact absurd h (by simp)
      · cases h
        exact Or.inr (Or.inr (Or.inr rfl))
    · exact absurd h (by simp)

lemma parse_formula_at_nat (fuel : Nat) {p : Parser} {t : Token} {v : Nat}
    (hp : p.peek = .ok t) (hk : t.kind = .Nat v) :
    Parser.parse_formula fuel p = none ∨
      Parser.parse_formula fuel p =
        some (.ok (.lit (Lit.from_i64 (u64_as_i64 v)), p)) := by
  cases fuel with
  | zero => exact Or.inl rfl
  | succ m =>
      right
      obtain ⟨tl, tk⟩ := t
      change tk = TokenKind.Nat v at hk
      subst hk
      unfold Parser.parse_formula
      rw [hp]

lemma parse_sat_header_spec {fuel : Nat} {p p2 : Parser} {inst : Instance}
    (h : Parser.parse_sat_header fuel p = some (.ok (inst, p2))) :
    ∃ nv e, inst = .sat nv e (.lit (Lit.from_i64 (u64_as_i64 nv))) ∧
      (e = Extensions.NONE ∨ e = Extensions.EQ ∨ e = Extensions.XOR ∨
       e = Extensions.EQXOR) := by
  unfold Parser.parse_sat_header at h
  split at h
  · exact absurd h (by simp)
  · rename_i exts p1 hext
    split at h
    · exact absurd h (by simp)
    · rename_i nv hnat
      split at h
      · exact absurd h (by simp)
      · exact absurd h (by simp)
      · rename_i f p2x hform
        cases h
        obtain ⟨t, hp1, hk⟩ := expect_nat_ok hnat
        rcases parse_formula_at_nat fuel hp1 hk with hnone | hlit
        · rw [hnone] at hform
          exact absurd hform (by simp)
        · rw [hlit] at hform
          cases hform
          exact ⟨nv, exts, rfl, parse_sat_extensions_ok_cases hext⟩

lemma parse_cnf_header_spec {p p2 : Parser} {inst : Instance}
    (h : p.parse_cnf_header = .ok (inst, p2)) : ∃ nv, inst = .cnf nv [] := by
  unfold Parser.parse_cnf_header at h
  split at h
  · exact absurd h (by simp)
  · split at h
    · exact absurd h (by simp)
    · rename_i nv hnv
      split at h
      · exact absurd h (by simp)
      · unfold Parser.parse_clauses at h
        cases h
        exact ⟨nv, rfl⟩

lemma parse_header_spec {fuel : Nat} {p p2 : Parser} {inst : Instance}
    (h : Parser.parse_header fuel p = some (.ok (inst, p2))) :
    (∃ nv, inst = .cnf nv []) ∨
    (∃ nv e, inst = .sat nv e (.lit (Lit.from_i64 (u64_as_i64 nv))) ∧
      (e = Extensions.NONE ∨ e = Extensions.EQ ∨ e = Extensions.XOR ∨
       e = Extensions.EQXOR)) := by
  unfold Parser.parse_header at h
  split at h
  · exact absurd h (by simp)
  · split at h
    · exact absurd h (by simp)
    · split at h
      · exact Or.inl (parse_cnf_header_spec (Option.some.inj h))
      · exact Or.inr (parse_sat_header_spec h)
      · exact Or.inr (parse_sat_header_spec h)
      · exact Or.inr (parse_sat_header_spec h)
      · exact Or.inr (parse_sat_header_spec h)
      · exact absurd h (by simp)

lemma parse_dimacs_ok_spec {input : List Nat} {inst : Instance}
    (h : parse_dimacs input = some (.ok inst)) :
    (∃ nv, inst = .cnf nv []) ∨
    (∃ nv e, inst = .sat nv e (.lit (Lit.from_i64 (u64_as_i64 nv))) ∧
      (e = Extensions.NONE ∨ e = Extensions.EQ ∨ e = Extensions.XOR ∨
       e = Extensions.EQXOR)) := by
  unfold parse_dimacs Parser.parse_dimacs at h
  split at h
  · exact absurd h (by simp)
  · split at h
    · exact absurd h (by simp)
    · exact absurd h (by simp)
    · rename_i instx p2 hhd
      cases h
      exact parse_header_spec hhd

/-- C7: the extension keywords `sat`, `sate`, `satx`, `satex` map to the
extension sets `{}`, `{Eq}`, `{Xor}`, `{Eq,Xor}` respectively; no other
extension set is reachable in any successful SAT parse; and any other
token at the extension position makes `parse_sat_extensions` fail with
`InvalidSatExtension` at that token's position. -/
theorem c7_sat_extension_mapping :
    (∀ (p : Parser) (e : Extensions) (p1 : Parser),
        p.parse_sat_extensions = .ok (e, p1) →
        ∃ t : Token, p.peek = .ok t ∧
          ((t.kind = .Ident .Sat ∧ e = Extensions.NONE) ∨
           (t.kind = .Ident .Sate ∧ e = Extensions.EQ) ∨
           (t.kind = .Ident .Satx ∧ e = Extensions.XOR) ∨
           (t.kind = .Ident .Satex ∧ e = Extensions.EQXOR))) ∧
    (∀ (p : Parser) (t : Token), p.peek = .ok t →
        t.kind ≠ .Ident .Sat → t.kind ≠ .Ident .Sate → t.kind ≠ .Ident .Satx →
        t.kind ≠ .Ident .Satex →
        p.parse_sat_extensions = .error ⟨t.loc, .InvalidSatExtension⟩) ∧
    (∀ (input : List Nat) (nv : Nat) (e : Extensions) (f : Formula),
        parse_dimacs input = some (.ok (.sat nv e f)) →
        e = Extensions.NONE ∨ e = Extensions.EQ ∨ e = Extensions.XOR ∨
          e = Extensions.EQXOR) := by
  refine ⟨?_, ?_, ?_⟩
  · intro p e p1 h
    unfold Parser.parse_sat_extensions at h
    split at h
    · exact absurd h (by simp)
    · rename_i t hpk
      refine ⟨t, hpk, ?_⟩
      split at h
      · rename_i hk
        split at h
        · exact absurd h (by simp)
        · cases h
          exact Or.inl ⟨hk, rfl⟩
      · rename_i hk
        split at h
        · exact absurd h (by simp)
        · cases h
          exact Or.inr (Or.inl ⟨hk, rfl⟩)
      · rename_i hk
        split at h
        · exact absurd h (by simp)
        · cases h
          exact Or.inr (Or.inr (Or.inl ⟨hk, rfl⟩))
      · rename_i hk
        split at h
        · exact absurd h (by simp)
        · cases h
          exact Or.inr (Or.inr (Or.inr ⟨hk, rfl⟩))
      · exact absurd h (by simp)
  · intro p t hpk h1 h2 h3 h4
    unfold Parser.parse_sat_extensions
    rw [hpk]
    have hloc : p.peek_loc = t.loc := peek_loc_of_ok hpk
    obtain ⟨tl, tk⟩ := t
    simp only at h1 h2 h3 h4
    cases tk <;> simp_all
  · intro input nv e f h
    rcases parse_dimacs_ok_spec h with ⟨nvx, hc⟩ | ⟨nvx, ex, hs, hcases⟩
    · exact Instance.noConfusion hc
    · cases hs
      exact hcases

/-- Witness for C7: a `cnf` token at the extension position is rejected
with `InvalidSatExtension`. -/
theorem c7_witness :
    Parser.parse_sat_extensions ⟨[], .ok ⟨Loc.new 1 3, .Ident .Cnf⟩⟩ =
      .error ⟨Loc.new 1 3, .InvalidSatExtension⟩ :=
  c7_sat_extension_mapping.2.1 ⟨[], .ok ⟨Loc.new 1 3, .Ident .Cnf⟩⟩ ⟨Loc.new 1 3, .Ident .Cnf⟩
    rfl (by decide) (by decide) (by decide) (by decide)

lemma from_i64_small {nv : Nat} (h : nv < 2 ^ 63) :
    Lit.from_i64 (u64_as_i64 nv) = ⟨nv, .Pos⟩ := by
  have h64 : nv < 2 ^ 64 := lt_trans h (by norm_num)
  unfold u64_as_i64 Lit.from_i64
  rw [Nat.mod_eq_of_lt h64, if_pos h]
  simp

/-- C3 (amended): every successful SAT parse returns as its formula exactly
the single literal `Lit::from_i64(num_vars as i64)` — the `num_vars` token
re-read as the whole formula; when `num_vars < 2^63` this is the positive
literal with variable index `num_vars` (for larger values the two's
complement reinterpretation flips the sign); no other formula shape is
ever produced for the SAT problem kind. -/
theorem c3_sat_formula_is_lookahead_nat :
    ∀ (input : List Nat) (nv : Nat) (e : Extensions) (f : Formula),
      parse_dimacs input = some (.ok (.sat nv e f)) →
      f = .lit (Lit.from_i64 (u64_as_i64 nv)) ∧
      (nv < 2 ^ 63 → f = .lit ⟨nv, .Pos⟩) := by
  intro input nv e f h
  rcases parse_dimacs_ok_spec h with ⟨nvx, hc⟩ | ⟨nvx, ex, hs, _⟩
  · exact Instance.noConfusion hc
  · cases hs
    exact ⟨rfl, fun hlt => by rw [from_i64_small hlt]⟩

/-- Witness for C3: the amended claim applied to the input `p sat 1`. -/
theorem c3_witness :
    Formula.lit ⟨1, .Pos⟩ = .lit (Lit.from_i64 (u64_as_i64 1)) ∧
      (1 < 2 ^ 63 → Formula.lit ⟨1, .Pos⟩ = .lit ⟨1, .Pos⟩) :=
  c3_sat_formula_is_lookahead_nat [112, 32, 115, 97, 116, 32, 49] 1 Extensions.NONE
    (.lit ⟨1, .Pos⟩) (by rfl)

lemma skipAlnumAux_spec : ∀ (input : List Nat) (cl : Loc),
    ∃ c, skipAlnumAux input cl =
      ((input.dropWhile isAlnumB).headD 0, ((input.dropWhile isAlnumB).tail, c)) := by
  intro input
  induction input with
  | nil => intro cl; exact ⟨cl, rfl⟩
  | cons b rest ih =>
      intro cl
      by_cases hb : isAlnumB b
      · obtain ⟨c, hc⟩ := ih (bumpPos b cl)
        refine ⟨c, ?_⟩
        simp [skipAlnumAux, hb, List.dropWhile_cons, hc]
      · refine ⟨bumpPos b cl, ?_⟩
        simp only [Bool.not_eq_true] at hb
        simp [skipAlnumAux, hb, List.dropWhile_cons]

lemma scanKeywordAux_spec : ∀ (input buf : List Nat) (cl : Loc), buf.length ≤ 5 →
    ∃ c, scanKeywordAux buf input cl =
      ((if buf.length + (input.takeWhile isAlnumB).length ≤ 5
          then some (buf ++ input.takeWhile isAlnumB) else none),
       ((input.dropWhile isAlnumB).headD 0, ((input.dropWhile isAlnumB).tail, c))) := by
  intro input
  induction input with
  | nil =>
      intro buf cl hb
      refine ⟨cl, ?_⟩
      simp [scanKeywordAux, hb]
  | cons b rest ih =>
      intro buf cl hb
      by_cases hal : isAlnumB b
      · by_cases hlen : buf.length < 5
        · obtain ⟨c, hc⟩ := ih (buf ++ [b]) (bumpPos b cl)
            (by simp only [List.length_append, List.length_cons, List.length_nil]; omega)
          refine ⟨c, ?_⟩
          have hstep : scanKeywordAux buf (b :: rest) cl =
              scanKeywordAux (buf ++ [b]) rest (bumpPos b cl) := by
            simp [scanKeywordAux, hal, hlen]
          rw [hstep, hc, List.takeWhile_cons_of_pos hal, List.dropWhile_cons_of_pos hal]
          exact congrArg₂ Prod.mk
            (if_congr
              (by simp only [List.length_append, List.length_cons, List.length_nil]; omega)
              (by simp [List.append_assoc]) rfl) rfl
        · obtain ⟨cs, hcs⟩ := skipAlnumAux_spec rest (bumpPos b cl)
          refine ⟨cs, ?_⟩
          have hstep : scanKeywordAux buf (b :: rest) cl =
              (none, skipAlnumAux rest (bumpPos b cl)) := by
            simp [scanKeywordAux, hal, hlen]
          rw [hstep, hcs, List.takeWhile_cons_of_pos hal, List.dropWhile_cons_of_pos hal]
          have hcond : ¬ (buf.length + (b :: List.takeWhile isAlnumB rest).length ≤ 5) := by
            simp only [List.length_cons]
            omega
          rw [if_neg hcond]
      · refine ⟨bumpPos b cl, ?_⟩
        have hal2 : isAlnumB b = false := by simpa using hal
        have hstep : scanKeywordAux buf (b :: rest) cl = (some buf, (b, rest, bumpPos b cl)) := by
          simp [scanKeywordAux, hal2]
        rw [hstep, List.takeWhile_cons_of_neg hal, List.dropWhile_cons_of_neg hal]
        simp [hb]

lemma isLetterB_not_ws {p : Nat} (h : isLetterB p = true) : isWsB p = false := by
  simp only [isLetterB, Bool.or_eq_true, Bool.and_eq_true, decide_eq_true_eq] at h
  simp only [isWsB, Bool.or_eq_false_iff, beq_eq_false_iff_ne, ne_eq]
  omega

lemma isLetterB_ne_zero {p : Nat} (h : isLetterB p = true) : (p == 0) = false := by
  simp only [isLetterB, Bool.or_eq_true, Bool.and_eq_true, decide_eq_true_eq] at h
  simp only [beq_eq_false_iff_ne, ne_eq]
  omega

/-- C8 (amended): whenever the lexer scans an alphanumeric run starting
with an ASCII letter that is neither one of the 7 keyword spellings nor
the single letter `c` (which instead scans a comment) — in particular any
run longer than the 5-byte buffer — it consumes the entire run and fails
with `UnknownKeyword` positioned at the run's first byte; in particular
`satq` fails with `UnknownKeyword` at the column of `s`. -/
theorem c8_unknown_keyword :
    (∀ lx : Lexer, isLetterB lx.peek = true →
        ¬ (lx.peek :: lx.input.takeWhile isAlnumB) ∈
            [[99], [112], [99, 110, 102], [115, 97, 116], [115, 97, 116, 101],
             [115, 97, 116, 120], [115, 97, 116, 101, 120], [120, 111, 114]] →
        ∃ lx1 : Lexer,
          lx.next_token = some (.error ⟨lx.cloc, .UnknownKeyword⟩, lx1) ∧
          lx1.input = (lx.input.dropWhile isAlnumB).tail ∧
          lx1.peek = (lx.input.dropWhile isAlnumB).headD 0) ∧
    tokens [115, 97, 116, 113] = [.error ⟨Loc.new 1 1, .UnknownKeyword⟩] := by
  constructor
  · intro lx hlet hrun
    obtain ⟨i, p, n, c⟩ := lx
    change isLetterB p = true at hlet
    change ¬ (p :: i.takeWhile isAlnumB) ∈ _ at hrun
    simp only [List.mem_cons, List.mem_singleton, not_or] at hrun
    obtain ⟨hne1, hne2, hne3, hne4, hne5, hne6, hne7, hne8, -⟩ := hrun
    show ∃ lx1, Lexer.next_token ⟨i, p, n, c⟩ =
        some (.error ⟨c, .UnknownKeyword⟩, lx1) ∧
      lx1.input = (i.dropWhile isAlnumB).tail ∧
      lx1.peek = (i.dropWhile isAlnumB).headD 0
    rw [next_token_eq i p n c (isLetterB_not_ws hlet) (isLetterB_ne_zero hlet),
      if_pos hlet]
    obtain ⟨cx, hsc⟩ := scanKeywordAux_spec i [p] c (by simp)
    unfold Lexer.scan_keyword
    rw [hsc]
    by_cases hlen : [p].length + (i.takeWhile isAlnumB).length ≤ 5
    · rw [if_pos hlen]
      have hbuf : [p] ++ i.takeWhile isAlnumB = p :: i.takeWhile isAlnumB :=
        List.singleton_append
      refine ⟨⟨(i.dropWhile isAlnumB).tail, (i.dropWhile isAlnumB).headD 0, c, cx⟩,
        ?_, rfl, rfl⟩
      dsimp only
      rw [hbuf, if_neg hne1, if_neg hne2, if_neg hne3, if_neg hne4, if_neg hne5,
        if_neg hne6, if_neg hne7, if_neg hne8]
    · rw [if_neg hlen]
      exact ⟨⟨(i.dropWhile isAlnumB).tail, (i.dropWhile isAlnumB).headD 0, c, cx⟩,
        rfl, rfl, rfl⟩
  · rfl

/-- Witness for C8: the run `satq` at the initial lexer state of input
`satq`. -/
theorem c8_witness :
    ∃ lx1 : Lexer,
      Lexer.next_token ⟨[97, 116, 113], 115, Loc.new 1 0, Loc.new 1 1⟩ =
        some (.error ⟨Loc.new 1 1, .UnknownKeyword⟩, lx1) ∧
      lx1.input = (([97, 116, 113] : List Nat).dropWhile isAlnumB).tail ∧
      lx1.peek = (([97, 116, 113] : List Nat).dropWhile isAlnumB).headD 0 :=
  c8_unknown_keyword.1 ⟨[97, 116, 113], 115, Loc.new 1 0, Loc.new 1 1⟩
    (by decide) (by decide)

/-- Line-positivity of the position carried by a stream item. -/
def resLineOk : Except ParseError Token → Prop
  | .ok t => 1 ≤ t.loc.line
  | .error e => 1 ≤ e.loc.line

lemma bumpPos_line (b : Nat) (cl : Loc) : cl.line ≤ (bumpPos b cl).line := by
  unfold bumpPos Loc.bump_line Loc.bump_col
  split <;> dsimp only <;> omega

lemma skipWsAux_line : ∀ (input : List Nat) (p : Nat) (cl : Loc),
    cl.line ≤ (skipWsAux p input cl).2.2.line := by
  intro input
  induction input with
  | nil =>
      intro p cl
      unfold skipWsAux
      split <;> simp
  | cons b rest ih =>
      intro p cl
      unfold skipWsAux
      split
      · exact le_trans (bumpPos_line b cl) (ih b (bumpPos b cl))
      · simp

lemma skipLineAux_line : ∀ (input : List Nat) (p : Nat) (cl : Loc),
    cl.line ≤ (skipLineAux p input cl).2.2.line := by
  intro input
  induction input with
  | nil =>
      intro p cl
      unfold skipLineAux
      split <;> simp
  | cons b rest ih =>
      intro p cl
      unfold skipLineAux
      split
      · simp
      · exact le_trans (bumpPos_line b cl) (ih b (bumpPos b cl))

lemma skipAlnumAux_line : ∀ (input : List Nat) (cl : Loc),
    cl.line ≤ (skipAlnumAux input cl).2.2.line := by
  intro input
  induction input with
  | nil => intro cl; simp [skipAlnumAux]
  | cons b rest ih =>
      intro cl
      unfold skipAlnumAux
      split
      · exact le_trans (bumpPos_line b cl) (ih (bumpPos b cl))
      · exact bumpPos_line b cl

lemma scanNatAux_line : ∀ (input : List Nat) (v : Nat) (cl : Loc),
    cl.line ≤ (scanNatAux v input cl).2.2.2.line := by
  intro input
  induction input with
  | nil => intro v cl; simp [scanNatAux]
  | cons b rest ih =>
      intro v cl
      unfold scanNatAux
      split
      · exact le_trans (bumpPos_line b cl) (ih _ (bumpPos b cl))
      · exact bumpPos_line b cl

lemma scanKeywordAux_line : ∀ (input buf : List Nat) (cl : Loc),
    cl.line ≤ (scanKeywordAux buf input cl).2.2.2.line := by
  intro input
  induction input with
  | nil => intro buf cl; simp [scanKeywordAux]
  | cons b rest ih =>
      intro buf cl
      unfold scanKeywordAux
      split
      · split
        · exact le_trans (bumpPos_line b cl) (ih _ (bumpPos b cl))
        · exact le_trans (bumpPos_line b cl) (skipAlnumAux_line rest (bumpPos b cl))
      · exact bumpPos_line b cl

lemma skip_whitespace_line (lx : Lexer) : lx.cloc.line ≤ lx.skip_whitespace.cloc.line := by
  rcases h : skipWsAux lx.peek lx.input lx.cloc with ⟨p, i, c⟩
  have hl := skipWsAux_line lx.input lx.peek lx.cloc
  rw [h] at hl
  unfold Lexer.skip_whitespace
  rw [h]
  exact hl

lemma scan_comment_line {i : List Nat} {p : Nat} {n c : Loc}
    (hn : 1 ≤ n.line) (hc : 1 ≤ c.line) :
    resLineOk (Lexer.scan_comment ⟨i, p, n, c⟩).1 ∧
      1 ≤ (Lexer.scan_comment ⟨i, p, n, c⟩).2.cloc.line := by
  rcases h : skipLineAux p i c with ⟨pk, ik, ck⟩
  have hl := skipLineAux_line i p c
  rw [h] at hl
  unfold Lexer.scan_comment Lexer.skip_line
  rw [h]
  exact ⟨hn, le_trans hc hl⟩

lemma scan_keyword_line {i : List Nat} {p : Nat} {n c : Loc}
    (hn : 1 ≤ n.line) (hc : 1 ≤ c.line) :
    resLineOk (Lexer.scan_keyword ⟨i, p, n, c⟩).1 ∧
      1 ≤ (Lexer.scan_keyword ⟨i, p, n, c⟩).2.cloc.line := by
  rcases h : scanKeywordAux [p] i c with ⟨ob, pk, ik, ck⟩
  have hl := scanKeywordAux_line i [p] c
  rw [h] at hl
  unfold Lexer.scan_keyword
  rw [h]
  cases ob with
  | none => exact ⟨hn, le_trans hc hl⟩
  | some buf =>
      dsimp only
      split_ifs
      · exact scan_comment_line hn (le_trans hc hl)
      all_goals exact ⟨hn, le_trans hc hl⟩

lemma scan_nat_line {i : List Nat} {p : Nat} {n c : Loc}
    (hn : 1 ≤ n.line) (hc : 1 ≤ c.line) :
    resLineOk (Lexer.scan_nat ⟨i, p, n, c⟩).1 ∧
      1 ≤ (Lexer.scan_nat ⟨i, p, n, c⟩).2.cloc.line := by
  rcases h : scanNatAux (p - 48) i c with ⟨v, pk, ik, ck⟩
  have hl := scanNatAux_line i (p - 48) c
  rw [h] at hl
  unfold Lexer.scan_nat
  rw [h]
  exact ⟨hn, le_trans hc hl⟩

lemma bump_cloc_line {lx : Lexer} (h : 1 ≤ lx.cloc.line) : 1 ≤ lx.bump.cloc.line := by
  rcases lx with ⟨i, p, n, c⟩
  cases i with
  | nil => simpa using h
  | cons b rest =>
      change (1 : Nat) ≤ c.line at h
      show 1 ≤ (Lexer.bump ⟨b :: rest, p, n, c⟩).cloc.line
      unfold Lexer.bump
      dsimp only
      split <;> dsimp [Loc.bump_line, Loc.bump_col] <;> omega

lemma next_token_line {lx : Lexer} {r : Except ParseError Token} {lx1 : Lexer}
    (hc : 1 ≤ lx.cloc.line) (h : lx.next_token = some (r, lx1)) :
    resLineOk r ∧ 1 ≤ lx1.cloc.line := by
  unfold Lexer.next_token at h
  rcases hsw : lx.skip_whitespace with ⟨i1, p1, n1, c1⟩
  rw [hsw] at h
  have hc1 : 1 ≤ c1.line := by
    have := skip_whitespace_line lx
    rw [hsw] at this
    exact le_trans hc this
  dsimp only at h
  by_cases hp0 : (p1 == 0) = true
  · rw [if_pos hp0] at h
    exact absurd h (by simp)
  · rw [if_neg hp0] at h
    have hdisp := Option.some.inj h
    split_ifs at hdisp
    · have := scan_keyword_line (i := i1) (p := p1) hc1 hc1
      rw [hdisp] at this
      exact this
    · have := scan_nat_line (i := i1) (p := p1) hc1 hc1
      rw [hdisp] at this
      exact this
    all_goals
      (injection hdisp with hr hlx
       subst hr
       subst hlx
       exact ⟨hc1, bump_cloc_line hc1⟩)

lemma lexListF_lineOk : ∀ (fuel : Nat) (lx : Lexer), 1 ≤ lx.cloc.line →
    ∀ r ∈ lexListF fuel lx, resLineOk r := by
  intro fuel
  induction fuel with
  | zero => intro lx hc r hr; simp [lexListF] at hr
  | succ m ih =>
      intro lx hc r hr
      simp only [lexListF] at hr
      cases hnt : lx.next_token with
      | none => rw [hnt] at hr; simp at hr
      | some pr =>
          obtain ⟨r1, lx1⟩ := pr
          rw [hnt] at hr
          obtain ⟨hok, hline⟩ := next_token_line hc hnt
          dsimp only at hr
          rcases List.mem_cons.mp hr with rfl | hr2
          · exact hok
          · exact ih lx1 hline r hr2

lemma fromBytes_line (input : List Nat) : 1 ≤ (Lexer.fromBytes input).cloc.line := by
  unfold Lexer.fromBytes Lexer.bump
  cases input with
  | nil => simp [Loc.new]
  | cons b rest =>
      dsimp only
      split <;> simp [Loc.new, Loc.bump_line, Loc.bump_col]

lemma tokens_lineOk (input : List Nat) : ∀ r ∈ tokens input, resLineOk r :=
  lexListF_lineOk _ _ (fromBytes_line input)

lemma validTokens_sub {input : List Nat} {r : Except ParseError Token}
    (h : r ∈ validTokens input) : r ∈ tokens input := by
  have heq := validListF_eq_filter (input.length + 2) (Lexer.fromBytes input)
  rw [show validTokens input = validListF (input.length + 2) (Lexer.fromBytes input)
      from rfl, heq] at h
  exact (List.mem_filter.mp h).1

/-- The parser-state invariant for C10: the lookahead and every remaining
stream item carry a positive line number. -/
def Parser.lineInv (p : Parser) : Prop :=
  resLineOk p.peek ∧ ∀ r ∈ p.tokens, resLineOk r

lemma peek_loc_line {p : Parser} (h : resLineOk p.peek) : 1 ≤ p.peek_loc.line := by
  unfold Parser.peek_loc
  rcases hp : p.peek with e | t
  · rw [hp] at h
    exact h
  · rw [hp] at h
    exact h

lemma consume_line {p : Parser} (h : p.lineInv) :
    resLineOk (p.consume).1 ∧ (p.consume).2.lineInv := by
  obtain ⟨hpk, htok⟩ := h
  unfold Parser.consume
  cases ht : p.tokens with
  | nil =>
      dsimp only
      exact ⟨peek_loc_line hpk, peek_loc_line hpk,
        fun r hr => absurd hr (List.not_mem_nil r)⟩
  | cons t rest =>
      dsimp only
      have hmem : t ∈ p.tokens := by rw [ht]; exact List.mem_cons_self t rest
      refine ⟨htok t hmem, htok t hmem, fun r hr => htok r ?_⟩
      rw [ht]
      exact List.mem_cons_of_mem t hr

lemma expect_line {k : TokenKind} {p : Parser} (h : p.lineInv) :
    resLineOk (Parser.expect k p).1 ∧ (Parser.expect k p).2.lineInv := by
  unfold Parser.expect
  rcases hp : p.peek with e | t
  · dsimp only
    have h1 := h.1
    rw [hp] at h1
    exact ⟨h1, h⟩
  · dsimp only
    split
    · exact consume_line h
    · exact ⟨peek_loc_line h.1, h⟩

lemma expect_nat_err_line {p : Parser} {e : ParseError} (h : p.lineInv)
    (he : p.expect_nat = .error e) : 1 ≤ e.loc.line := by
  unfold Parser.expect_nat at he
  split at he
  · rename_i e2 hp
    cases he
    have h1 := h.1
    rw [hp] at h1
    exact h1
  · split at he
    · exact absurd he (by simp)
    · cases he
      exact peek_loc_line h.1

lemma parse_sat_extensions_line {p : Parser} (h : p.lineInv) :
    (∀ e, p.parse_sat_extensions = .error e → 1 ≤ e.loc.line) ∧
    (∀ x p1, p.parse_sat_extensions = .ok (x, p1) → p1.lineInv) := by
  constructor
  · intro e he
    unfold Parser.parse_sat_extensions at he
    split at he
    · rename_i e2 hp
      cases he
      have h1 := h.1
      rw [hp] at h1
      exact h1
    · rename_i t hp
      split at he
      · split at he
        · rename_i w hcon
          cases he
          have := (consume_line h).1
          rw [hcon] at this
          exact this
        · exact absurd he (by simp)
      · split at he
        · rename_i w hcon
          cases he
          have := (consume_line h).1
          rw [hcon] at this
          exact this
        · exact absurd he (by simp)
      · split at he
        · rename_i w hcon
          cases he
          have := (consume_line h).1
          rw [hcon] at this
          exact this
        · exact absurd he (by simp)
      · split at he
        · rename_i w hcon
          cases he
          have := (consume_line h).1
          rw [hcon] at this
          exact this
        · exact absurd he (by simp)
      · cases he
        exact peek_loc_line h.1
  · intro x p1 hok
    unfold Parser.parse_sat_extensions at hok
    split at hok
    · exact absurd hok (by simp)
    · split at hok <;> try (exact absurd hok (by simp))
      all_goals
        (split at hok
         · exact absurd hok (by simp)
         · rename_i w hcon
           cases hok
           have := (consume_line h).2
           rw [hcon] at this
           exact this)

lemma parse_cnf_header_err_line {p : Parser} {e : ParseError} (h : p.lineInv)
    (he : p.parse_cnf_header = .error e) : 1 ≤ e.loc.line := by
  unfold Parser.parse_cnf_header at he
  split at he
  · rename_i e2 w hexp
    cases he
    have := (expect_line (k := .Ident .Cnf) h).1
    rw [hexp] at this
    exact this
  · rename_i tk p1 hexp
    have hp1 : p1.lineInv := by
      have := (expect_line (k := .Ident .Cnf) h).2
      rw [hexp] at this
      exact this
    split at he
    · rename_i e2 hnat
      cases he
      exact expect_nat_err_line hp1 hnat
    · split at he
      · rename_i e2 hnat2
        exact absurd hnat2 (by simp)
      · split at he
        · rename_i e2 w2 hcl
          unfold Parser.parse_clauses at hcl
          exact absurd hcl (by simp)
        · exact absurd he (by simp)

lemma parse_sat_header_err_line {fuel : Nat} {p : Parser} {e : ParseError}
    (h : p.lineInv) (he : Parser.parse_sat_header fuel p = some (.error e)) :
    1 ≤ e.loc.line := by
  unfold Parser.parse_sat_header at he
  split at he
  · rename_i e2 hext
    simp only [Option.some.injEq, Except.error.injEq] at he
    subst he
    exact (parse_sat_extensions_line h).1 e2 hext
  · rename_i exts p1 hext
    have hp1 : p1.lineInv := (parse_sat_extensions_line h).2 exts p1 hext
    split at he
    · rename_i e2 hnat
      simp only [Option.some.injEq, Except.error.injEq] at he
      subst he
      exact expect_nat_err_line hp1 hnat
    · rename_i nv hnat
      split at he
      · exact absurd he (by simp)
      · rename_i e2 hform
        obtain ⟨t, hpk, hk⟩ := expect_nat_ok hnat
        rcases parse_formula_at_nat fuel hpk hk with hnone | hlit
        · rw [hnone] at hform
          exact absurd hform (by simp)
        · rw [hlit] at hform
          exact absurd hform (by simp)
      · exact absurd he (by simp)

lemma parse_header_err_line {fuel : Nat} {p : Parser} {e : ParseError}
    (h : p.lineInv) (he : Parser.parse_header fuel p = some (.error e)) :
    1 ≤ e.loc.line := by
  unfold Parser.parse_header at he
  split at he
  · rename_i e2 w hexp
    simp only [Option.some.injEq, Except.error.injEq] at he
    subst he
    have := (expect_line (k := .Ident .Problem) h).1
    rw [hexp] at this
    exact this
  · rename_i tk p1 hexp
    have hp1 : p1.lineInv := by
      have := (expect_line (k := .Ident .Problem) h).2
      rw [hexp] at this
      exact this
    split at he
    · rename_i e2 hpk
      simp only [Option.some.injEq, Except.error.injEq] at he
      subst he
      have h1 := hp1.1
      rw [hpk] at h1
      exact h1
    · rename_i t hpk
      split at he
      · exact parse_cnf_header_err_line hp1 (Option.some.inj he)
      · exact parse_sat_header_err_line hp1 he
      · exact parse_sat_header_err_line hp1 he
      · exact parse_sat_header_err_line hp1 he
      · exact parse_sat_header_err_line hp1 he
      · simp only [Option.some.injEq, Except.error.injEq] at he
        subst he
        exact peek_loc_line hp1.1

lemma fromInput_consume (input : List Nat) :
    (Parser.fromInput input).consume =
      (match validTokens input with
       | [] => ((.error ⟨Loc.new 0 0, .UnexpectedEndOfFile⟩ : Except ParseError Token),
                (⟨[], .error ⟨Loc.new 0 0, .UnexpectedEndOfFile⟩⟩ : Parser))
       | t :: rest => (t, ⟨rest, t⟩)) := by
  unfold Parser.fromInput Parser.fromTokens Parser.consume Parser.peek_loc
  cases validTokens input <;> rfl

/-- C10 (amended): every position carried by a raw-lexer token or error has
a positive line number (columns are naturals, hence non-negative by type);
every error returned by `parse_dimacs` likewise has a positive line
number, EXCEPT that when the filtered token stream is empty the parser
fails with `UnexpectedEndOfFile` at the initial sentinel position (0, 0),
whose line number is 0. -/
theorem c10_line_positive :
    (∀ (input : List Nat), ∀ r ∈ tokens input, resLineOk r) ∧
    (∀ (input : List Nat) (e : ParseError),
        parse_dimacs input = some (.error e) →
        1 ≤ e.loc.line ∨
          (validTokens input = [] ∧ e = ⟨Loc.new 0 0, .UnexpectedEndOfFile⟩)) := by
  constructor
  · exact fun input => tokens_lineOk input
  · intro input e h
    unfold parse_dimacs Parser.parse_dimacs at h
    rw [fromInput_consume] at h
    cases hv : validTokens input with
    | nil =>
        rw [hv] at h
        dsimp only at h
        simp only [Option.some.injEq, Except.error.injEq] at h
        exact Or.inr ⟨rfl, h.symm⟩
    | cons t rest =>
        rw [hv] at h
        dsimp only at h
        cases t with
        | error e2 =>
            dsimp only at h
            simp only [Option.some.injEq, Except.error.injEq] at h
            subst h
            have hm : (.error e2 : Except ParseError Token) ∈ validTokens input := by
              rw [hv]
              exact List.mem_cons_self _ _
            have := tokens_lineOk input _ (validTokens_sub hm)
            exact Or.inl this
        | ok tok =>
            dsimp only at h
            have hinv : Parser.lineInv ⟨rest, .ok tok⟩ := by
              constructor
              · have hm : (.ok tok : Except ParseError Token) ∈ validTokens input := by
                  rw [hv]
                  exact List.mem_cons_self _ _
                exact tokens_lineOk input _ (validTokens_sub hm)
              · intro r hr
                have hm : r ∈ validTokens input := by
                  rw [hv]
                  exact List.mem_cons_of_mem _ hr
                exact tokens_lineOk input r (validTokens_sub hm)
            cases hph : Parser.parse_header (input.length + 2) ⟨rest, .ok tok⟩ with
            | none => rw [hph] at h; exact absurd h (by simp)
            | some res =>
                cases res with
                | error e2 =>
                    rw [hph] at h
                    simp only [Option.some.injEq, Except.error.injEq] at h
                    subst h
                    exact Or.inl (parse_header_err_line hinv hph)
                | ok pr =>
                    rw [hph] at h
                    exact absurd h (by simp)

/-- Witness for C10: a token of input `1` has line 1, and input `c`
(comment only, hence an empty filtered stream) hits the sentinel case. -/
theorem c10_witness :
    (1 ≤ (Loc.new 1 1).line) ∧
    (1 ≤ (Loc.new 0 0).line ∨
      (validTokens [99] = [] ∧
        (⟨Loc.new 0 0, .UnexpectedEndOfFile⟩ : ParseError) =
          ⟨Loc.new 0 0, .UnexpectedEndOfFile⟩)) :=
  ⟨c10_line_positive.1 [49] (.ok ⟨Loc.new 1 1, .Nat 1⟩) (by decide),
   c10_line_positive.2 [99] ⟨Loc.new 0 0, .UnexpectedEndOfFile⟩ (by rfl)⟩

end Dimacs
